import Mathlib

/-!
Shallow embedding of the URL failover subsystem of `src/api/index.js`:
the ranked-URLs view (`GET /api/channels/:id/urls`), the batch health
check (`POST /api/channels/:id/check-health`) and the failure report
(`POST /api/channels/:id/report-failure`), together with proofs of the
specification's claims about them.

JS-specific behaviour is embedded faithfully: `x || y` treats `0`,
`""`, `null` and `undefined` as falsy; `response.ok` means a status in
the 2xx range; `Array.prototype.sort` is a stable comparator sort,
embedded as `List.insertionSort` over the comparator's `cmp a b ≤ 0`
relation.
-/

namespace ApiVercel

/-- A stored URL entry of a channel, as kept in the channel store.
Optional JSON fields are `Option`s; `none` means the field is absent. -/
structure UrlEntry where
  url : String
  quality : Option String := none
  priority : Option Int := none
  isHealthy : Option Bool := none
  lastChecked : Option String := none
  lastError : Option String := none
  statusCode : Option Int := none
  error : Option String := none
deriving Repr, DecidableEq

/-- A channel record; `urls` is `none` when the stored `urls` column is null. -/
structure Channel where
  id : String
  name : String
  urls : Option (List UrlEntry) := none
deriving Repr, DecidableEq

/-- A derived entry of the ranked view: the spread of the stored entry with
`index`, effective `priority`, effective `isHealthy` and `lastChecked`
overridden, as built by the `.map((url, index) => ...)` step. -/
structure RankedEntry where
  url : String
  quality : Option String
  priority : Int
  isHealthy : Bool
  lastChecked : Option String
  lastError : Option String
  statusCode : Option Int
  error : Option String
  index : Nat
deriving Repr, DecidableEq

/-- JS number coercion of a boolean (`true - false = 1 - 0`). -/
def boolToInt (b : Bool) : Int := if b then 1 else 0

/-- JS truthiness of our `Option Bool` model (`undefined` is falsy). -/
def jsTruthy : Option Bool → Bool
  | some b => b
  | none => false

/-- JS `s || d` for an optional string: absent or empty string falls back. -/
def jsStrOr (s : Option String) (d : String) : String :=
  match s with
  | some v => if v = "" then d else v
  | none => d

/-- The map step of the ranked view, for the entry at stored index `i`:
`priority: url.priority || index` (so a stored priority of `0` is falsy and
falls back to the index), `isHealthy: url.isHealthy !== false`,
`lastChecked: url.lastChecked || null`, and the original `index` attached. -/
def deriveEntry (i : Nat) (e : UrlEntry) : RankedEntry :=
  { url := e.url
    quality := e.quality
    priority :=
      match e.priority with
      | some p => if p = 0 then (i : Int) else p
      | none => (i : Int)
    isHealthy := decide (e.isHealthy ≠ some false)
    lastChecked :=
      match e.lastChecked with
      | some s => if s = "" then none else some s
      | none => none
    lastError := e.lastError
    statusCode := e.statusCode
    error := e.error
    index := i }

/-- `urls.map((url, index) => ...)`, with `i` the index of the head. -/
def deriveAll (i : Nat) : List UrlEntry → List RankedEntry
  | [] => []
  | e :: es => deriveEntry i e :: deriveAll (i + 1) es

/-- The JS comparator of the ranked view:
`if (a.isHealthy !== b.isHealthy) return b.isHealthy - a.isHealthy;
return a.priority - b.priority;`. -/
def cmpUrls (a b : RankedEntry) : Int :=
  if a.isHealthy ≠ b.isHealthy then boolToInt b.isHealthy - boolToInt a.isHealthy
  else a.priority - b.priority

/-- `a` may be placed before `b` by the stable comparator sort. -/
def urlLe (a b : RankedEntry) : Prop := cmpUrls a b ≤ 0

instance : DecidableRel urlLe := fun a b => inferInstanceAs (Decidable (cmpUrls a b ≤ 0))

/-- The ranked view of `GET /api/channels/:id/urls`: derive each entry, then
stable-sort by the comparator (`Array.prototype.sort` is stable). -/
def rankedView (urls : List UrlEntry) : List RankedEntry :=
  List.insertionSort urlLe (deriveAll 0 urls)

/-- Result of the supabase channel read; `.single()` reports both a missing
row and a genuine storage failure through the same `error` field. -/
inductive ReadErr where
  | noRows
  | storageFailure
deriving Repr, DecidableEq

/-- The HTTP-level outcome of a handler: the `200` payload or one of the
error responses (`404` not-found, `400` invalid-argument, `500` internal). -/
inductive ApiResp (α : Type) where
  | ok (v : α)
  | notFound
  | invalidArgument
  | internal
deriving Repr, DecidableEq

/-- Payload of the ranked-URLs response. -/
structure UrlsResp where
  channelId : String
  channelName : String
  urls : List RankedEntry
deriving Repr, DecidableEq

/-- The `GET /api/channels/:id/urls` handler. The second component is the
write issued to the channel store (`none`: no write happens). -/
def listUrls (readRes : Except ReadErr Channel) :
    ApiResp UrlsResp × Option (List UrlEntry) :=
  match readRes with
  | .error _ => (.notFound, none)
  | .ok c =>
      (.ok { channelId := c.id, channelName := c.name
             urls := rankedView (c.urls.getD []) }, none)

/-- Applies a handler's write trace to the stored `urls` column. -/
def applyWrite (stored : Option (List UrlEntry)) (w : Option (List UrlEntry)) :
    Option (List UrlEntry) :=
  match w with
  | none => stored
  | some u => some u

/-- Payload of the report-failure response. -/
structure ReportResp where
  nextUrl : Option UrlEntry
  remainingHealthyUrls : Nat
deriving Repr, DecidableEq

/-- The default `lastError` message of a failure report. -/
def defaultFailureMsg : String := "Player reported failure"

/-- The mutation of a failure report: copy the list and overwrite entry `k`
with the spread `... isHealthy: false, lastChecked: now, lastError: ...`.
The handler only calls this after checking that index `k` holds an entry. -/
def markFailed (urls : List UrlEntry) (k : Nat) (msg : Option String)
    (now : String) : List UrlEntry :=
  match urls[k]? with
  | some e =>
      urls.set k { e with isHealthy := some false, lastChecked := some now
                          lastError := some (jsStrOr msg defaultFailureMsg) }
  | none => urls

/-- `updatedUrls.find((url, idx) => idx !== urlIndex && url.isHealthy !== false)`,
scanning from position `i`. -/
def findOther (k : Nat) : Nat → List UrlEntry → Option UrlEntry
  | _, [] => none
  | i, e :: es =>
      if i ≠ k ∧ e.isHealthy ≠ some false then some e else findOther k (i + 1) es

/-- Length of `updatedUrls.filter((url, idx) => idx !== urlIndex && url.isHealthy !== false)`,
scanning from position `i`. -/
def countOther (k : Nat) : Nat → List UrlEntry → Nat
  | _, [] => 0
  | i, e :: es =>
      (if i ≠ k ∧ e.isHealthy ≠ some false then 1 else 0) + countOther k (i + 1) es

/-- The `POST /api/channels/:id/report-failure` handler. `urlIndex` is the
body field (`none`: missing or non-numeric); `writeOk` tells whether the
channel-store update succeeds; the second component is the write issued. -/
def reportFailure (readRes : Except ReadErr Channel) (urlIndex : Option Nat)
    (urlError : Option String) (now : String) (writeOk : Bool) :
    ApiResp ReportResp × Option (List UrlEntry) :=
  match readRes with
  | .error _ => (.notFound, none)
  | .ok c =>
      match c.urls with
      | none => (.invalidArgument, none)
      | some urls =>
          match urlIndex with
          | none => (.invalidArgument, none)
          | some k =>
              match urls[k]? with
              | none => (.invalidArgument, none)
              | some _ =>
                  let updatedUrls := markFailed urls k urlError now
                  if writeOk then
                    (.ok { nextUrl := findOther k 0 updatedUrls
                           remainingHealthyUrls := countOther k 0 updatedUrls },
                     some updatedUrls)
                  else (.internal, some updatedUrls)

/-- Outcome of one health probe: the `fetch` either resolves with a status
or throws (network error, timeout). -/
inductive ProbeResult where
  | success (status : Int)
  | failure (msg : String)
deriving Repr, DecidableEq

/-- One entry's health-check update: on success spread
`... isHealthy: response.ok, lastChecked: now, statusCode` (WHATWG
`response.ok` is `200 <= status < 300`); on a thrown probe spread
`... isHealthy: false, lastChecked: now, error: err.message`. -/
def applyProbe (e : UrlEntry) (r : ProbeResult) (now : String) : UrlEntry :=
  match r with
  | .success s =>
      { e with isHealthy := some (decide (200 ≤ s ∧ s < 300))
               lastChecked := some now, statusCode := some s }
  | .failure m =>
      { e with isHealthy := some false, lastChecked := some now, error := some m }

/-- The `Promise.all((channel.urls || []).map(...))` of the health check:
each entry at index `i` is updated from its own probe's outcome. -/
def probeAll (probes : Nat → ProbeResult) (now : String) :
    Nat → List UrlEntry → List UrlEntry
  | _, [] => []
  | i, e :: es => applyProbe e (probes i) now :: probeAll probes now (i + 1) es

/-- `updatedUrls.filter(u => u.isHealthy).length`. -/
def healthyCount (l : List UrlEntry) : Nat :=
  (l.filter fun u => jsTruthy u.isHealthy).length

/-- `updatedUrls.filter(u => !u.isHealthy).length`. -/
def unhealthyCount (l : List UrlEntry) : Nat :=
  (l.filter fun u => !jsTruthy u.isHealthy).length

/-- The `healthySummary` of the health-check response. -/
structure HealthSummary where
  total : Nat
  healthy : Nat
  unhealthy : Nat
deriving Repr, DecidableEq

/-- Payload of the health-check response (`channel` is the updated row). -/
structure HealthResp where
  channel : Channel
  summary : HealthSummary
deriving Repr, DecidableEq

/-- The `POST /api/channels/:id/check-health` handler. `probes` gives each
index's probe outcome; `writeOk` tells whether the channel-store update
succeeds; the second component is the write issued. -/
def checkHealth (readRes : Except ReadErr Channel) (probes : Nat → ProbeResult)
    (now : String) (writeOk : Bool) :
    ApiResp HealthResp × Option (List UrlEntry) :=
  match readRes with
  | .error _ => (.notFound, none)
  | .ok c =>
      let updatedUrls := probeAll probes now 0 (c.urls.getD [])
      if writeOk then
        (.ok { channel := { c with urls := some updatedUrls }
               summary := { total := updatedUrls.length
                            healthy := healthyCount updatedUrls
                            unhealthy := unhealthyCount updatedUrls } },
         some updatedUrls)
      else (.internal, some updatedUrls)

/-! ### Lemmas about the comparator and the stable sort -/

/-- The placement order actually produced by a stable comparator sort:
`a` is weakly before `b`, and if `b` is also weakly before `a` (the
comparator ties) then `a` came earlier in the input, witnessed here by the
strictly smaller attached storage index. -/
def stablyBefore (a b : RankedEntry) : Prop :=
  urlLe a b ∧ (urlLe b a → a.index < b.index)

theorem urlLe_total (a b : RankedEntry) : urlLe a b ∨ urlLe b a := by
  unfold urlLe cmpUrls boolToInt
  by_cases h : a.isHealthy = b.isHealthy
  · simp [h]; omega
  · cases ha : a.isHealthy <;> cases hb : b.isHealthy <;> simp_all

theorem urlLe_trans {a b c : RankedEntry} (hab : urlLe a b) (hbc : urlLe b c) :
    urlLe a c := by
  unfold urlLe cmpUrls boolToInt at *
  cases ha : a.isHealthy <;> cases hb : b.isHealthy <;> cases hc : c.isHealthy <;>
    simp_all <;> omega

theorem urlLe_healthy {a b : RankedEntry} (h : urlLe a b)
    (hb : b.isHealthy = true) : a.isHealthy = true := by
  unfold urlLe cmpUrls boolToInt at h
  cases ha : a.isHealthy <;> simp_all

theorem urlLe_priority {a b : RankedEntry} (h : urlLe a b)
    (hh : a.isHealthy = b.isHealthy) : a.priority ≤ b.priority := by
  unfold urlLe cmpUrls at h
  simp [hh] at h
  omega

theorem urlLe_of_eq_keys {a b : RankedEntry} (hh : a.isHealthy = b.isHealthy)
    (hp : a.priority = b.priority) : urlLe b a := by
  unfold urlLe cmpUrls
  simp [hh, hp]

theorem pairwise_orderedInsert (x : RankedEntry) (l : List RankedEntry)
    (hl : l.Pairwise stablyBefore) (hx : ∀ y ∈ l, x.index < y.index) :
    (List.orderedInsert urlLe x l).Pairwise stablyBefore := by
  induction l with
  | nil => simp [List.orderedInsert, List.pairwise_singleton]
  | cons y ys ih =>
      rw [List.orderedInsert]
      rcases List.pairwise_cons.mp hl with ⟨hy, hys⟩
      by_cases hxy : urlLe x y
      · rw [if_pos hxy]
        refine List.pairwise_cons.mpr ⟨?_, hl⟩
        intro z hz
        rcases List.mem_cons.mp hz with rfl | hz
        · exact ⟨hxy, fun _ => hx z (List.mem_cons_self z ys)⟩
        · exact ⟨urlLe_trans hxy (hy z hz).1,
            fun _ => hx z (List.mem_cons_of_mem y hz)⟩
      · rw [if_neg hxy]
        refine List.pairwise_cons.mpr ⟨?_, ?_⟩
        · intro z hz
          rcases (List.mem_orderedInsert urlLe).mp hz with heq | hz
          · rw [heq]
            exact ⟨(urlLe_total x y).resolve_left hxy, fun h => absurd h hxy⟩
          · exact hy z hz
        · exact ih hys fun z hz => hx z (List.mem_cons_of_mem y hz)

theorem pairwise_insertionSort (l : List RankedEntry)
    (hl : l.Pairwise fun a b => a.index < b.index) :
    (List.insertionSort urlLe l).Pairwise stablyBefore := by
  induction l with
  | nil => simp [List.insertionSort]
  | cons x xs ih =>
      rw [List.insertionSort]
      rcases List.pairwise_cons.mp hl with ⟨hx, hxs⟩
      exact pairwise_orderedInsert x _ (ih hxs)
        fun y hy => hx y ((List.mem_insertionSort urlLe).mp hy)

theorem deriveEntry_index (i : Nat) (e : UrlEntry) : (deriveEntry i e).index = i := rfl

theorem deriveAll_index_ge :
    ∀ (l : List UrlEntry) (i : Nat), ∀ x ∈ deriveAll i l, i ≤ x.index := by
  intro l
  induction l with
  | nil => intro i x hx; simp [deriveAll] at hx
  | cons e es ih =>
      intro i x hx
      rcases List.mem_cons.mp hx with rfl | hx
      · simp [deriveEntry_index]
      · exact Nat.le_of_succ_le (ih (i + 1) x hx)

theorem deriveAll_pairwise_index (l : List UrlEntry) (i : Nat) :
    (deriveAll i l).Pairwise fun a b => a.index < b.index := by
  induction l generalizing i with
  | nil => simp [deriveAll]
  | cons e es ih =>
      refine List.pairwise_cons.mpr ⟨?_, ih (i + 1)⟩
      intro y hy
      have := deriveAll_index_ge es (i + 1) y hy
      simp only [deriveEntry_index]
      omega

theorem rankedView_pairwise (urls : List UrlEntry) :
    (rankedView urls).Pairwise stablyBefore :=
  pairwise_insertionSort _ (deriveAll_pairwise_index urls 0)

/-! ### Lemmas about the handlers' list traversals -/

theorem deriveAll_getElem? (l : List UrlEntry) :
    ∀ (j i : Nat), (deriveAll j l)[i]? = (l[i]?).map fun e => deriveEntry (j + i) e := by
  induction l with
  | nil => intro j i; simp [deriveAll]
  | cons e es ih =>
      intro j i
      cases i with
      | zero => simp [deriveAll]
      | succ n =>
          simp only [deriveAll, List.getElem?_cons_succ, ih (j + 1) n]
          have : j + 1 + n = j + (n + 1) := by omega
          rw [this]

theorem probeAll_getElem? (probes : Nat → ProbeResult) (now : String)
    (l : List UrlEntry) :
    ∀ (j i : Nat),
      (probeAll probes now j l)[i]? = (l[i]?).map fun e => applyProbe e (probes (j + i)) now := by
  induction l with
  | nil => intro j i; simp [probeAll]
  | cons e es ih =>
      intro j i
      cases i with
      | zero => simp [probeAll]
      | succ n =>
          simp only [probeAll, List.getElem?_cons_succ, ih (j + 1) n]
          have : j + 1 + n = j + (n + 1) := by omega
          rw [this]

theorem probeAll_length (probes : Nat → ProbeResult) (now : String) :
    ∀ (l : List UrlEntry) (j : Nat), (probeAll probes now j l).length = l.length := by
  intro l
  induction l with
  | nil => intro j; rfl
  | cons e es ih => intro j; simp [probeAll, ih (j + 1)]

theorem markFailed_length (urls : List UrlEntry) (k : Nat) (msg : Option String)
    (now : String) : (markFailed urls k msg now).length = urls.length := by
  unfold markFailed
  cases urls[k]? <;> simp

/-- The predicate of the claim-side scan over index-entry pairs:
position not `k` and `isHealthy` not exactly `false`. -/
def otherPred (k : Nat) (p : Nat × UrlEntry) : Bool :=
  decide (p.1 ≠ k) && decide (p.2.isHealthy ≠ some false)

/-- Specification-side formulation of the claim's `nextUrl`: the first entry
of `l` in stored order whose position is not `k` and whose `isHealthy` is
not exactly `false`. -/
def specNext (k : Nat) (l : List UrlEntry) : Option UrlEntry :=
  ((l.enum).find? (otherPred k)).map fun p => p.2

/-- Specification-side formulation of the claim's `remainingHealthyUrls`:
the number of entries of `l` whose position is not `k` and whose
`isHealthy` is not exactly `false`. -/
def specCount (k : Nat) (l : List UrlEntry) : Nat :=
  ((l.enum).filter (otherPred k)).length

theorem findOther_spec (k : Nat) :
    ∀ (l : List UrlEntry) (i : Nat),
      findOther k i l = ((List.enumFrom i l).find? (otherPred k)).map fun p => p.2 := by
  intro l
  induction l with
  | nil => intro i; simp [findOther, List.enumFrom]
  | cons e es ih =>
      intro i
      by_cases h : i ≠ k ∧ e.isHealthy ≠ some false
      · simp [findOther, h, List.enumFrom, List.find?_cons, otherPred, h.1, h.2]
      · have hp : otherPred k (i, e) = false := by
          simp only [otherPred]
          rcases not_and_or.mp h with h1 | h1 <;> simp [not_not.mp h1]
        simp [findOther, h, List.enumFrom, List.find?_cons, hp, ih (i + 1)]

theorem countOther_spec (k : Nat) :
    ∀ (l : List UrlEntry) (i : Nat),
      countOther k i l = ((List.enumFrom i l).filter (otherPred k)).length := by
  intro l
  induction l with
  | nil => intro i; simp [countOther, List.enumFrom]
  | cons e es ih =>
      intro i
      by_cases h : i ≠ k ∧ e.isHealthy ≠ some false
      · simp [countOther, h, List.enumFrom, List.filter_cons, otherPred, h.1, h.2, ih (i + 1)]
        omega
      · have hp : otherPred k (i, e) = false := by
          simp only [otherPred]
          rcases not_and_or.mp h with h1 | h1 <;> simp [not_not.mp h1]
        simp [countOther, h, List.enumFrom, List.filter_cons, hp, ih (i + 1)]

theorem findOther_none_iff (k : Nat) :
    ∀ (l : List UrlEntry) (i : Nat), findOther k i l = none ↔ countOther k i l = 0 := by
  intro l
  induction l with
  | nil => intro i; simp [findOther, countOther]
  | cons e es ih =>
      intro i
      by_cases h : i ≠ k ∧ e.isHealthy ≠ some false
      · simp [findOther, countOther, h]
      · simp [findOther, countOther, h, ih (i + 1)]

/-! ### Claim theorems -/

/-- Claim C1: for every channel URL-entry sequence, the ranked view places
every entry whose effective `isHealthy` is true before every entry whose
effective `isHealthy` is false; within each health group entries appear in
non-decreasing effective priority order; and equal-priority, equal-health
entries retain their original relative storage-index order. -/
theorem C1_rankedView_order (urls : List UrlEntry) :
    (rankedView urls).Pairwise fun a b =>
      (b.isHealthy = true → a.isHealthy = true) ∧
      (a.isHealthy = b.isHealthy → a.priority ≤ b.priority) ∧
      (a.isHealthy = b.isHealthy → a.priority = b.priority → a.index < b.index) := by
  refine (rankedView_pairwise urls).imp ?_
  rintro a b ⟨hab, hidx⟩
  exact ⟨fun hb => urlLe_healthy hab hb,
    fun hh => urlLe_priority hab hh,
    fun hh hp => hidx (urlLe_of_eq_keys hh hp)⟩

/-- Claim C2: in the ranked view, an entry whose stored record has no
`priority` field gets, as effective priority, its storage index; an entry
whose stored `isHealthy` is anything other than exactly `false` is ranked
healthy; and each derived entry carries its original storage index in its
`index` field. The ranked view is a permutation of the derived list, so it
holds exactly these derived entries. -/
theorem C2_rankedView_defaults (urls : List UrlEntry) (i : Nat) (e : UrlEntry)
    (he : urls[i]? = some e) :
    (∃ d, (deriveAll 0 urls)[i]? = some d ∧ d.index = i ∧
      (e.priority = none → d.priority = (i : Int)) ∧
      (e.isHealthy ≠ some false → d.isHealthy = true)) ∧
    (rankedView urls).Perm (deriveAll 0 urls) := by
  constructor
  · refine ⟨deriveEntry i e, ?_, rfl, ?_, ?_⟩
    · rw [deriveAll_getElem?, he]
      simp
    · intro hp
      simp [deriveEntry, hp]
    · intro hh
      simp [deriveEntry, hh]
  · exact List.perm_insertionSort urlLe _

/-- Witness for C2 at a concrete input. -/
theorem C2_rankedView_defaults_witness :
    ([({ url := "a" } : UrlEntry)][0]? = some { url := "a" }) ∧
    ((∃ d, (deriveAll 0 [({ url := "a" } : UrlEntry)])[0]? = some d ∧ d.index = 0 ∧
      (({ url := "a" } : UrlEntry).priority = none → d.priority = (0 : Int)) ∧
      (({ url := "a" } : UrlEntry).isHealthy ≠ some false → d.isHealthy = true)) ∧
    (rankedView [({ url := "a" } : UrlEntry)]).Perm (deriveAll 0 [({ url := "a" } : UrlEntry)])) :=
  ⟨rfl, C2_rankedView_defaults [{ url := "a" }] 0 { url := "a" } rfl⟩

/-- Claim C3 is false of the code: on the channel with stored entries
`a` (priority 1, healthy) and `b` (priority 0, healthy), the ranked view
returns `a` first and `b` second, because `url.priority || index` treats the
stored priority `0` of `b` as falsy and replaces it by `b`'s storage
index 1, so the two entries tie at effective priority 1 and the stable sort
keeps the storage order. The repository's own documentation says priority 0
is the highest priority, so this is a bug in the code. -/
theorem C3_code_output :
    (rankedView [{ url := "a", priority := some 1, isHealthy := some true },
                 { url := "b", priority := some 0, isHealthy := some true }]).map
      (fun e => e.url) = ["a", "b"] := by
  rfl

/-- Claim C4: for every existing channel and valid stored index, the failure
report returns `nextUrl` equal to the first entry in raw stored order whose
index is not `urlIndex` and whose post-mutation `isHealthy` is not exactly
`false`, and `remainingHealthyUrls` equal to the count of entries excluding
`urlIndex` whose post-mutation `isHealthy` is not `false`; on a channel
with exactly one entry it returns `nextUrl` null and
`remainingHealthyUrls` 0. -/
theorem C4_reportFailure_output (c : Channel) (urls : List UrlEntry) (k : Nat)
    (msg : Option String) (now : String) (e : UrlEntry)
    (hu : c.urls = some urls) (hk : urls[k]? = some e) :
    reportFailure (.ok c) (some k) msg now true =
      (.ok { nextUrl := specNext k (markFailed urls k msg now)
             remainingHealthyUrls := specCount k (markFailed urls k msg now) },
       some (markFailed urls k msg now)) ∧
    (urls.length = 1 →
      specNext k (markFailed urls k msg now) = none ∧
      specCount k (markFailed urls k msg now) = 0) := by
  constructor
  · simp only [reportFailure, hu, hk]
    rw [specNext, specCount, List.enum, findOther_spec, countOther_spec]
    simp
  · intro hlen
    have hk0 : k = 0 := by
      have hlt : k < urls.length := by
        rcases Nat.lt_or_ge k urls.length with h | h
        · exact h
        · rw [List.getElem?_eq_none h] at hk
          exact absurd hk (by simp)
      omega
    have hm : (markFailed urls k msg now).length = 1 := by
      rw [markFailed_length, hlen]
    rcases List.length_eq_one.mp hm with ⟨m, hm1⟩
    rw [hm1, hk0]
    constructor
    · simp [specNext, List.enum, List.enumFrom, List.find?_cons, otherPred]
    · simp [specCount, List.enum, List.enumFrom, List.filter_cons, otherPred]

/-- Witness for C4 at a concrete input: a single-entry channel. -/
theorem C4_reportFailure_output_witness :
    (({ id := "1", name := "n", urls := some [{ url := "a" }] } : Channel).urls =
      some [{ url := "a" }]) ∧
    ([({ url := "a" } : UrlEntry)][0]? = some { url := "a" }) ∧
    (reportFailure (.ok { id := "1", name := "n", urls := some [{ url := "a" }] })
        (some 0) none "t" true =
      (.ok { nextUrl := specNext 0 (markFailed [{ url := "a" }] 0 none "t")
             remainingHealthyUrls := specCount 0 (markFailed [{ url := "a" }] 0 none "t") },
       some (markFailed [{ url := "a" }] 0 none "t")) ∧
    (([({ url := "a" } : UrlEntry)]).length = 1 →
      specNext 0 (markFailed [{ url := "a" }] 0 none "t") = none ∧
      specCount 0 (markFailed [{ url := "a" }] 0 none "t") = 0)) :=
  ⟨rfl, rfl,
    C4_reportFailure_output { id := "1", name := "n", urls := some [{ url := "a" }] }
      [{ url := "a" }] 0 none "t" { url := "a" } rfl rfl⟩

/-- Claim C5: for an existing channel, a failure report with a missing or
out-of-range `urlIndex` fails with the invalid-argument error and performs
no mutation: no write to the channel store is issued and the stored
URL-entry sequence is unchanged. -/
theorem C5_invalid_index (c : Channel) (urls : List UrlEntry)
    (urlIndex : Option Nat) (msg : Option String) (now : String) (w : Bool)
    (hu : c.urls = some urls)
    (hbad : ∀ k, urlIndex = some k → urls.length ≤ k) :
    reportFailure (.ok c) urlIndex msg now w = (.invalidArgument, none) ∧
    applyWrite c.urls (reportFailure (.ok c) urlIndex msg now w).2 = c.urls := by
  have hmain : reportFailure (.ok c) urlIndex msg now w = (.invalidArgument, none) := by
    cases urlIndex with
    | none => simp [reportFailure, hu]
    | some k =>
        have : urls[k]? = none := List.getElem?_eq_none (hbad k rfl)
        simp [reportFailure, hu, this]
  exact ⟨hmain, by rw [hmain]; rfl⟩

/-- Witness for C5 at a concrete input: index 1 on a single-entry channel. -/
theorem C5_invalid_index_witness :
    (({ id := "1", name := "n", urls := some [{ url := "a" }] } : Channel).urls =
      some [{ url := "a" }]) ∧
    (∀ k, (some 1 : Option Nat) = some k → ([({ url := "a" } : UrlEntry)]).length ≤ k) ∧
    (reportFailure (.ok { id := "1", name := "n", urls := some [{ url := "a" }] })
        (some 1) none "t" true = (.invalidArgument, none) ∧
    applyWrite ({ id := "1", name := "n", urls := some [{ url := "a" }] } : Channel).urls
        (reportFailure (.ok { id := "1", name := "n", urls := some [{ url := "a" }] })
          (some 1) none "t" true).2 =
      ({ id := "1", name := "n", urls := some [{ url := "a" }] } : Channel).urls) :=
  ⟨rfl, by intro k hk; cases hk; decide,
    C5_invalid_index { id := "1", name := "n", urls := some [{ url := "a" }] }
      [{ url := "a" }] (some 1) none "t" true rfl
      (by intro k hk; cases hk; decide)⟩

/-- Claim C10: for every existing channel and valid `urlIndex`, the failure
report's `nextUrl` is null exactly when its `remainingHealthyUrls` is 0:
both come from the same post-mutation scan predicate. -/
theorem C10_next_iff_remaining (c : Channel) (urls : List UrlEntry) (k : Nat)
    (msg : Option String) (now : String) (e : UrlEntry)
    (hu : c.urls = some urls) (hk : urls[k]? = some e) :
    ∃ resp, (reportFailure (.ok c) (some k) msg now true).1 = .ok resp ∧
      (resp.nextUrl = none ↔ resp.remainingHealthyUrls = 0) := by
  refine ⟨{ nextUrl := findOther k 0 (markFailed urls k msg now)
            remainingHealthyUrls := countOther k 0 (markFailed urls k msg now) },
    ?_, ?_⟩
  · simp [reportFailure, hu, hk]
  · exact findOther_none_iff k (markFailed urls k msg now) 0

/-- Witness for C10 at a concrete input. -/
theorem C10_next_iff_remaining_witness :
    (({ id := "1", name := "n", urls := some [{ url := "a" }] } : Channel).urls =
      some [{ url := "a" }]) ∧
    ([({ url := "a" } : UrlEntry)][0]? = some { url := "a" }) ∧
    (∃ resp, (reportFailure (.ok { id := "1", name := "n", urls := some [{ url := "a" }] })
        (some 0) none "t" true).1 = .ok resp ∧
      (resp.nextUrl = none ↔ resp.remainingHealthyUrls = 0)) :=
  ⟨rfl, rfl,
    C10_next_iff_remaining { id := "1", name := "n", urls := some [{ url := "a" }] }
      [{ url := "a" }] 0 none "t" { url := "a" } rfl rfl⟩

/-- Claim C6 is false as stated: a probe that resolves with status 300,
which lies in the claimed healthy 2xx to 3xx range, leaves the entry with
`isHealthy` false, because the code uses `response.ok`, which holds only
for statuses 200 to 299. -/
theorem C6_counterexample :
    (checkHealth (.ok { id := "1", name := "n", urls := some [{ url := "a" }] })
        (fun _ => .success 300) "t" true).2 =
      some [{ url := "a", isHealthy := some false, lastChecked := some "t"
              statusCode := some 300 }] ∧
    ((200 : Int) ≤ 300 ∧ (300 : Int) ≤ 399) := by
  refine ⟨rfl, by decide⟩

/-- Claim C6 as amended: in the batch health check, an entry whose probe
succeeds with a status ends healthy exactly when the status is in the 2xx
range (200 to 299), with `lastChecked` set to now and the status recorded;
an entry whose probe fails ends unhealthy with `lastChecked` set to now and
the error description recorded; and the handler persists exactly the
batch-updated list. -/
theorem C6_health_update (urls : List UrlEntry) (probes : Nat → ProbeResult)
    (now : String) (i : Nat) (e : UrlEntry) (he : urls[i]? = some e) :
    (∀ s, probes i = .success s →
      ∃ u, (probeAll probes now 0 urls)[i]? = some u ∧
        (u.isHealthy = some true ↔ 200 ≤ s ∧ s ≤ 299) ∧
        (u.isHealthy = some false ↔ s < 200 ∨ 300 ≤ s) ∧
        u.lastChecked = some now ∧ u.statusCode = some s ∧ u.url = e.url) ∧
    (∀ m, probes i = .failure m →
      ∃ u, (probeAll probes now 0 urls)[i]? = some u ∧
        u.isHealthy = some false ∧ u.lastChecked = some now ∧
        u.error = some m ∧ u.url = e.url) ∧
    (∀ c : Channel, c.urls = some urls →
      (checkHealth (.ok c) probes now true).2 = some (probeAll probes now 0 urls)) := by
  have hget : (probeAll probes now 0 urls)[i]? =
      some (applyProbe e (probes i) now) := by
    rw [probeAll_getElem?, he]
    simp
  refine ⟨?_, ?_, ?_⟩
  · intro s hs
    refine ⟨applyProbe e (probes i) now, hget, ?_, ?_, ?_, ?_, ?_⟩ <;>
        rw [hs] <;>
      simp only [applyProbe, Option.some.injEq, decide_eq_true_eq,
        decide_eq_false_iff_not] <;>
      first
      | rfl
      | omega
  · intro m hm
    refine ⟨applyProbe e (probes i) now, hget, ?_, ?_, ?_, ?_⟩ <;> rw [hm] <;>
      simp [applyProbe]
  · intro c hc
    simp [checkHealth, hc]

/-- Witness for the amended C6 at a concrete input. -/
theorem C6_health_update_witness :
    ([({ url := "a" } : UrlEntry)][0]? = some { url := "a" }) ∧
    ((∀ s, (fun _ : Nat => ProbeResult.success 204) 0 = .success s →
      ∃ u, (probeAll (fun _ => .success 204) "t" 0 [({ url := "a" } : UrlEntry)])[0]? = some u ∧
        (u.isHealthy = some true ↔ 200 ≤ s ∧ s ≤ 299) ∧
        (u.isHealthy = some false ↔ s < 200 ∨ 300 ≤ s) ∧
        u.lastChecked = some "t" ∧ u.statusCode = some s ∧
        u.url = ({ url := "a" } : UrlEntry).url) ∧
    (∀ m, (fun _ : Nat => ProbeResult.success 204) 0 = .failure m →
      ∃ u, (probeAll (fun _ => .success 204) "t" 0 [({ url := "a" } : UrlEntry)])[0]? = some u ∧
        u.isHealthy = some false ∧ u.lastChecked = some "t" ∧
        u.error = some m ∧ u.url = ({ url := "a" } : UrlEntry).url) ∧
    (∀ c : Channel, c.urls = some [({ url := "a" } : UrlEntry)] →
      (checkHealth (.ok c) (fun _ => .success 204) "t" true).2 =
        some (probeAll (fun _ => .success 204) "t" 0 [({ url := "a" } : UrlEntry)]))) :=
  ⟨rfl, C6_health_update [{ url := "a" }] (fun _ => .success 204) "t" 0 { url := "a" } rfl⟩

/-- Claim C7: in the batch health check, each entry's result is determined
solely by its own probe (a single probe failure degrades only that entry),
`url`, `quality` and `priority` are never changed by the update, and the
scenario with a timeout for entry 0 and ok(200) for entry 1 ends with entry
0 unhealthy carrying an error description, entry 1 healthy with status 200,
and summary total 2, healthy 1, unhealthy 1. -/
theorem C7_probe_isolation (urls : List UrlEntry) (probes : Nat → ProbeResult)
    (now : String) (i : Nat) :
    (probeAll probes now 0 urls)[i]? =
      (urls[i]?).map (fun e => applyProbe e (probes i) now) ∧
    (∀ e r n, (applyProbe e r n).url = e.url ∧
      (applyProbe e r n).quality = e.quality ∧
      (applyProbe e r n).priority = e.priority) ∧
    (checkHealth
        (.ok { id := "1", name := "n", urls := some [{ url := "u0" }, { url := "u1" }] })
        (fun n => if n = 0 then .failure "timeout" else .success 200) "t" true).1 =
      .ok { channel := { id := "1", name := "n", urls := some [
              { url := "u0", isHealthy := some false, lastChecked := some "t"
                error := some "timeout" },
              { url := "u1", isHealthy := some true, lastChecked := some "t"
                statusCode := some 200 }] }
            summary := { total := 2, healthy := 1, unhealthy := 1 } } := by
  refine ⟨?_, ?_, ?_⟩
  · rw [probeAll_getElem?]
    simp
  · intro e r n
    cases r <;> simp [applyProbe]
  · rfl

/-- Claim C9: the ranked-URLs read never writes to the channel store: no
write is issued, the stored sequence after the call is exactly what it was
before, and the ranking exists only in the returned payload. -/
theorem C9_listUrls_pure (readRes : Except ReadErr Channel)
    (stored : Option (List UrlEntry)) (c : Channel) :
    (listUrls readRes).2 = none ∧
    applyWrite stored (listUrls readRes).2 = stored ∧
    (listUrls (.ok c)).1 =
      .ok { channelId := c.id, channelName := c.name
            urls := rankedView (c.urls.getD []) } := by
  have hw : (listUrls readRes).2 = none := by
    cases readRes <;> rfl
  exact ⟨hw, by rw [hw]; rfl, rfl⟩

/-- Claim C8 is false as stated: a channel-store failure during the initial
channel read of the failure-report or health-check handler is surfaced as
the not-found error, not as the internal error: the handlers turn any read
error into the not-found response. -/
theorem C8_counterexample :
    (reportFailure (.error .storageFailure) (some 0) none "t" true).1 =
      (.notFound : ApiResp ReportResp) ∧
    (checkHealth (.error .storageFailure) (fun _ => .success 200) "t" true).1 =
      (.notFound : ApiResp HealthResp) ∧
    (ApiResp.notFound : ApiResp ReportResp) ≠ .internal := by
  refine ⟨rfl, rfl, by decide⟩

/-- Claim C8 as amended: for the failure-report and health-check handlers, a
channel-store failure during the write-back is surfaced as the internal
error, a failure kind distinct from the not-found error and from the
invalid-argument error; a store failure during the initial channel read is
surfaced as the not-found error. -/
theorem C8_error_kinds (c : Channel) (urls : List UrlEntry) (k : Nat)
    (e : UrlEntry) (msg : Option String) (now : String)
    (probes : Nat → ProbeResult)
    (hu : c.urls = some urls) (hk : urls[k]? = some e) :
    (reportFailure (.ok c) (some k) msg now false).1 = .internal ∧
    (checkHealth (.ok c) probes now false).1 = .internal ∧
    (∀ r : ReadErr, (reportFailure (.error r) (some k) msg now true).1 = .notFound ∧
      (checkHealth (.error r) probes now true).1 = .notFound) ∧
    (ApiResp.internal ≠ (ApiResp.notFound : ApiResp ReportResp)) ∧
    (ApiResp.internal ≠ (ApiResp.invalidArgument : ApiResp ReportResp)) ∧
    (ApiResp.internal ≠ (ApiResp.notFound : ApiResp HealthResp)) ∧
    (ApiResp.internal ≠ (ApiResp.invalidArgument : ApiResp HealthResp)) := by
  refine ⟨?_, ?_, ?_, by decide, by decide, by decide, by decide⟩
  · simp [reportFailure, hu, hk]
  · simp [checkHealth, hu]
  · intro r
    exact ⟨rfl, rfl⟩

/-- Witness for the amended C8 at a concrete input. -/
theorem C8_error_kinds_witness :
    (({ id := "1", name := "n", urls := some [{ url := "a" }] } : Channel).urls =
      some [{ url := "a" }]) ∧
    ([({ url := "a" } : UrlEntry)][0]? = some { url := "a" }) ∧
    ((reportFailure (.ok { id := "1", name := "n", urls := some [{ url := "a" }] })
        (some 0) none "t" false).1 = .internal ∧
    (checkHealth (.ok { id := "1", name := "n", urls := some [{ url := "a" }] })
        (fun _ => .success 200) "t" false).1 = .internal ∧
    (∀ r : ReadErr,
      (reportFailure (.error r) (some 0) none "t" true).1 = .notFound ∧
      (checkHealth (.error r) (fun _ => .success 200) "t" true).1 = .notFound) ∧
    (ApiResp.internal ≠ (ApiResp.notFound : ApiResp ReportResp)) ∧
    (ApiResp.internal ≠ (ApiResp.invalidArgument : ApiResp ReportResp)) ∧
    (ApiResp.internal ≠ (ApiResp.notFound : ApiResp HealthResp)) ∧
    (ApiResp.internal ≠ (ApiResp.invalidArgument : ApiResp HealthResp))) :=
  ⟨rfl, rfl,
    C8_error_kinds { id := "1", name := "n", urls := some [{ url := "a" }] }
      [{ url := "a" }] 0 { url := "a" } none "t" (fun _ => .success 200) rfl rfl⟩

end ApiVercel
